import Mathlib

/-!
Verification of the DNS-Master test-orchestration engine.

Shallow embedding of the Rust sources:
* `src/src/dns_utils.rs`   — `DnsTestResult`, `run_full_test`
* `src/src/mirror_utils.rs`— `Distro`, `Mirror`, `MirrorTestResult`
* `src/src/app.rs`         — `App` and its state-machine operations
* `src/src/file_loader.rs` — `load_mirrors`

Modelling conventions:
* IP addresses are represented by their textual form (`String`); the code
  itself compares addresses via `to_string()`, so nothing is lost.
* `Duration` is modelled as nanoseconds (`Nat`); Rust derives a total order
  on `Duration` and on `Option<Duration>` with `None` least.
* `f64` throughputs are modelled as `Rat`.  The throughput values produced
  by the probes are finite quotients (bits divided by a positive number of
  seconds), so no NaN arises and the float comparison is total on the
  reachable values.
* Network effects (resolver queries, HTTP downloads, the outer deadline)
  are abstracted into explicit outcome parameters.
* The two capacity-1 channels are not part of the `App` struct here; the
  dispatch/record protocol is modelled by folding `record_result` over the
  per-candidate results in dispatch order, which is exactly what the
  `update` loop does one message at a time.
-/

namespace DnsMaster

/-! ### Data model -/

/-- Rust `AppState` from `src/src/app.rs`. -/
inductive AppState where
  | Input
  | Testing
  | Results
deriving DecidableEq

/-- Rust `AppMode` from `src/src/app.rs`. -/
inductive AppMode where
  | Dns
  | Mirror
deriving DecidableEq

/-- Rust `SortColumn` from `src/src/app.rs`. -/
inductive SortColumn where
  | Ip
  | Latency
  | DownloadSpeed
  | Name
deriving DecidableEq

/-- Rust `Distro` from `src/src/mirror_utils.rs`. -/
inductive Distro where
  | Arch
  | Debian
  | Ubuntu
  | Kali
  | Mint
  | Manjaro
  | Docker
  | AndroidSDK
  | Unknown
deriving DecidableEq

/-- Rust `Mirror` from `src/src/mirror_utils.rs`. -/
structure Mirror where
  name : String
  url : String
  distro : Distro
deriving DecidableEq

/-- Rust `DnsTestResult` from `src/src/dns_utils.rs`. -/
structure DnsTestResult where
  ip : String
  latency : Option Nat
  download_speed_mbps : Option Rat
  error : Option String
deriving DecidableEq

/-- Rust `DnsTestResult::new` from `src/src/dns_utils.rs`. -/
def DnsTestResult.new (ip : String) : DnsTestResult :=
  { ip := ip, latency := none, download_speed_mbps := none, error := none }

/-- Rust `MirrorTestResult` from `src/src/mirror_utils.rs`. -/
structure MirrorTestResult where
  name : String
  url : String
  speed_mbps : Option Rat
  error : Option String
deriving DecidableEq

/-- Rust `App` from `src/src/app.rs` (the `tui_input::Input` widget and the two
channel ends `tx`/`rx` are omitted; the dispatch protocol they implement is
modelled explicitly by the run theorems). -/
structure App where
  mode : AppMode
  state : AppState
  dns_servers : List String
  mirrors : List Mirror
  results : List DnsTestResult
  mirror_results : List MirrorTestResult
  last_result : Option DnsTestResult
  last_mirror_result : Option MirrorTestResult
  best_result : Option DnsTestResult
  best_mirror_result : Option MirrorTestResult
  testing_index : Nat
  sort_column : SortColumn
  sort_ascending : Bool
  should_quit : Bool
  error_message : Option String
  status_message : Option (String × Bool)
  detected_distro : Distro
  tick_count : Nat
deriving DecidableEq

/-! ### Comparators

Rust's `sort_by` is a stable sort driven by an `Ordering`-valued comparator.
We model it with `List.mergeSort` (stable) and the predicate
"comparator does not answer `gt`". -/

/-- The three-way comparison of a linear order, as Rust `Ord::cmp` produces it
for `Duration`, strings and (on non-NaN values) `f64`. -/
def cmpLin {K : Type} [LinearOrder K] (a b : K) : Ordering :=
  if a < b then Ordering.lt else if a = b then Ordering.eq else Ordering.gt

/-- Rust's derived ordering on `Option`: `None` is least. -/
def cmpOpt {α : Type} (c : α → α → Ordering) : Option α → Option α → Ordering
  | none, none => Ordering.eq
  | none, some _ => Ordering.lt
  | some _, none => Ordering.gt
  | some a, some b => c a b

/-- The Boolean "may stay before" relation a Rust `sort_by` call induces:
in ascending direction the comparator itself, in descending direction the
reversed comparator (`Ordering::reverse`), and an element may precede
another unless the comparison answers `gt`. -/
def sortLe {α : Type} (c : α → α → Ordering) (ascending : Bool) (a b : α) : Bool :=
  decide ((if ascending then c a b else (c a b).swap) ≠ Ordering.gt)

/-- Rust `self.results.sort_by(...)` / `self.mirror_results.sort_by(...)`:
a stable sort honouring the comparator and direction. -/
def sortByCmp {α : Type} (c : α → α → Ordering) (ascending : Bool) (l : List α) : List α :=
  l.mergeSort (sortLe c ascending)

/-- The `SortColumn::Ip` comparator: `a.ip.to_string().cmp(&b.ip.to_string())`. -/
def cmpByIp (a b : DnsTestResult) : Ordering := cmpLin a.ip b.ip

/-- The `SortColumn::Latency` comparator: `a.latency.cmp(&b.latency)`. -/
def cmpByLatency (a b : DnsTestResult) : Ordering := cmpOpt cmpLin a.latency b.latency

/-- The `SortColumn::DownloadSpeed` comparator on DNS results. -/
def cmpBySpeed (a b : DnsTestResult) : Ordering :=
  cmpOpt cmpLin a.download_speed_mbps b.download_speed_mbps

/-- The `SortColumn::DownloadSpeed` comparator on mirror results. -/
def cmpMirrorBySpeed (a b : MirrorTestResult) : Ordering :=
  cmpOpt cmpLin a.speed_mbps b.speed_mbps

/-- The `SortColumn::Name` comparator on mirror results: `a.name.cmp(&b.name)`. -/
def cmpMirrorByName (a b : MirrorTestResult) : Ordering := cmpLin a.name b.name

/-! ### App operations from `src/src/app.rs` -/

/-- The `is_better` computation inside `App::record_result`
(`src/src/app.rs` lines 137-150): throughput first with a 0.01 Mbps
tolerance, latency as the tie-break. -/
def dnsLatencyIsBetter (result best : DnsTestResult) : Bool :=
  match result.latency, best.latency with
  | some l1, some l2 => decide (l1 < l2)
  | some _, none => true
  | none, some _ => false
  | none, none => false

def dnsIsBetter (result best : DnsTestResult) : Bool :=
  match result.download_speed_mbps, best.download_speed_mbps with
  | some s1, some s2 =>
      if |s1 - s2| > 1 / 100 then decide (s1 > s2) else dnsLatencyIsBetter result best
  | some _, none => true
  | none, some _ => false
  | none, none => dnsLatencyIsBetter result best

/-- The `is_better` computation inside `App::record_mirror_result`
(`src/src/app.rs` lines 277-281). -/
def mirrorIsBetter (result best : MirrorTestResult) : Bool :=
  match result.speed_mbps, best.speed_mbps with
  | some s1, some s2 => decide (s1 > s2)
  | some _, none => true
  | _, _ => false

/-- Rust `App::sort_results` (`src/src/app.rs` lines 174-215). -/
def App.sort_results (self : App) : App :=
  let ascending := self.sort_ascending
  match self.sort_column with
  | SortColumn.Ip =>
      { self with results := sortByCmp cmpByIp ascending self.results }
  | SortColumn.Latency =>
      { self with results := sortByCmp cmpByLatency ascending self.results }
  | SortColumn.DownloadSpeed =>
      if self.mode = AppMode.Dns then
        { self with results := sortByCmp cmpBySpeed ascending self.results }
      else
        { self with mirror_results := sortByCmp cmpMirrorBySpeed ascending self.mirror_results }
  | SortColumn.Name =>
      { self with mirror_results := sortByCmp cmpMirrorByName ascending self.mirror_results }

/-- Rust `App::finish_testing` (`src/src/app.rs` lines 167-170). -/
def App.finish_testing (self : App) : App :=
  App.sort_results { self with state := AppState.Results }

/-- The body of `App::record_result` before the completion check
(`src/src/app.rs` lines 132-159). -/
def App.record_result_core (self : App) (result : DnsTestResult) : App :=
  let s1 := { self with last_result := some result }
  let s2 :=
    match s1.best_result with
    | some best =>
        if dnsIsBetter result best then { s1 with best_result := some result } else s1
    | none =>
        if result.error.isNone && (result.latency.isSome || result.download_speed_mbps.isSome) then
          { s1 with best_result := some result }
        else s1
  { s2 with results := s2.results ++ [result], testing_index := s2.testing_index + 1 }

/-- Rust `App::record_result` (`src/src/app.rs` lines 132-164). -/
def App.record_result (self : App) (result : DnsTestResult) : App :=
  let s := self.record_result_core result
  if s.dns_servers.length ≤ s.testing_index then s.finish_testing else s

/-- The body of `App::record_mirror_result` before the completion check
(`src/src/app.rs` lines 272-290). -/
def App.record_mirror_result_core (self : App) (result : MirrorTestResult) : App :=
  let s1 := { self with last_mirror_result := some result }
  let s2 :=
    match s1.best_mirror_result with
    | some best =>
        if mirrorIsBetter result best then { s1 with best_mirror_result := some result } else s1
    | none =>
        if result.error.isNone && result.speed_mbps.isSome then
          { s1 with best_mirror_result := some result }
        else s1
  { s2 with mirror_results := s2.mirror_results ++ [result], testing_index := s2.testing_index + 1 }

/-- Rust `App::record_mirror_result` (`src/src/app.rs` lines 272-295). -/
def App.record_mirror_result (self : App) (result : MirrorTestResult) : App :=
  let s := self.record_mirror_result_core result
  if s.mirrors.length ≤ s.testing_index then s.finish_testing else s

/-- Rust `App::cycle_sort_column` (`src/src/app.rs` lines 218-232). -/
def App.cycle_sort_column (self : App) : App :=
  let next :=
    match self.sort_column with
    | SortColumn.Ip => SortColumn.Latency
    | SortColumn.Latency => SortColumn.DownloadSpeed
    | SortColumn.DownloadSpeed =>
        if self.mode = AppMode.Mirror then SortColumn.Name else SortColumn.Ip
    | SortColumn.Name => SortColumn.Ip
  App.sort_results { self with sort_column := next }

/-- Rust `App::toggle_sort_direction` (`src/src/app.rs` lines 235-238). -/
def App.toggle_sort_direction (self : App) : App :=
  App.sort_results { self with sort_ascending := !self.sort_ascending }

/-- Rust `App::reset` (`src/src/app.rs` lines 243-253). -/
def App.reset (self : App) : App :=
  { self with
    state := AppState.Input
    results := []
    mirror_results := []
    last_result := none
    last_mirror_result := none
    best_result := none
    best_mirror_result := none
    testing_index := 0
    status_message := none }

/-- Rust `App::start_testing` (`src/src/app.rs` lines 310-329).  The send of the
first target on the capacity-1 channel does not change the `App` value; the
dispatch protocol is modelled by the run theorems. -/
def App.start_testing (self : App) : App :=
  let numTargets :=
    match self.mode with
    | AppMode.Dns => self.dns_servers.length
    | AppMode.Mirror => self.mirrors.length
  if numTargets ≠ 0 then
    { self with
      state := AppState.Testing
      testing_index := 0
      results := []
      mirror_results := [] }
  else self

/-! ### `run_full_test` from `src/src/dns_utils.rs` -/

/-- Rust `run_full_test` (`src/src/dns_utils.rs` lines 111-142), with the network
abstracted: `stage1` is the outcome of `test_latency`, `stage2` the outcome
of `test_download_speed`, and `timedOut` says whether the outer 7.5-second
`tokio::time::timeout` elapsed before the test future completed. -/
def run_full_test (ip : String) (timedOut : Bool)
    (stage1 : Except String Nat) (stage2 : Except String Rat) : DnsTestResult :=
  if timedOut then
    { DnsTestResult.new ip with error := some "Test timed out (exceeded 7.5s)" }
  else
    match stage1 with
    | Except.error e =>
        { DnsTestResult.new ip with error := some ("Latency test failed: " ++ e) }
    | Except.ok latency =>
        match stage2 with
        | Except.ok speed =>
            { DnsTestResult.new ip with
              latency := some latency
              download_speed_mbps := some speed }
        | Except.error e =>
            { DnsTestResult.new ip with
              latency := some latency
              error := some ("Download test failed: " ++ e) }

/-! ### `load_mirrors` from `src/src/file_loader.rs` -/

/-- A parsed `MirrorRecord` CSV row from `src/src/file_loader.rs`. -/
structure MirrorRecord where
  name : String
  url : String
  distro : String
deriving DecidableEq

/-- Rust `to_lowercase` on the free-text labels (character-wise lowercasing;
the labels involved are ASCII, where Rust's `to_lowercase` and per-character
lowercasing agree). -/
def lowerString (s : String) : String :=
  ⟨s.data.map Char.toLower⟩

/-- The distro-label match inside `load_mirrors`
(`src/src/file_loader.rs` lines 27-37): lowercase the free-text label and
map it onto the closed tag set, unrecognized labels to `Unknown`. -/
def parseMirrorDistro (s : String) : Distro :=
  match lowerString s with
  | "arch" => Distro.Arch
  | "debian" => Distro.Debian
  | "ubuntu" => Distro.Ubuntu
  | "kali" => Distro.Kali
  | "mint" => Distro.Mint
  | "manjaro" => Distro.Manjaro
  | "docker" => Distro.Docker
  | "androidsdk" => Distro.AndroidSDK
  | _ => Distro.Unknown

/-- Rust `load_mirrors` (`src/src/file_loader.rs` lines 20-52) over the already
parsed CSV rows (file opening and CSV deserialization are I/O glue; a parse
failure aborts the whole load, so the function body only ever sees a list
of well-formed rows). -/
def load_mirrors : List MirrorRecord → Distro → List Mirror
  | [], _ => []
  | record :: rest, current_distro =>
    let distro := parseMirrorDistro record.distro
    if distro = current_distro ∨ distro = Distro.Docker ∨ distro = Distro.AndroidSDK then
      { name := record.name, url := record.url, distro := distro } ::
        load_mirrors rest current_distro
    else load_mirrors rest current_distro

/-! ### Comparator laws -/

/-- The comparator answers symmetrically (as every Rust `Ord`/derived
comparator does). -/
def CmpSymm {α : Type} (c : α → α → Ordering) : Prop :=
  ∀ a b, c a b = (c b a).swap

/-- Transitivity of the induced "not greater" relation. -/
def CmpTrans {α : Type} (c : α → α → Ordering) : Prop :=
  ∀ a b d, c a b ≠ Ordering.gt → c b d ≠ Ordering.gt → c a d ≠ Ordering.gt

theorem cmpLin_eq_gt {K : Type} [LinearOrder K] {a b : K} :
    cmpLin a b = Ordering.gt ↔ b < a := by
  unfold cmpLin
  rcases lt_trichotomy a b with h | h | h
  · simp [h, not_lt_of_lt h, ne_of_lt h]
  · simp [h]
  · simp [not_lt_of_lt h, (ne_of_lt h).symm, h]

theorem cmpLin_ne_gt {K : Type} [LinearOrder K] {a b : K} :
    cmpLin a b ≠ Ordering.gt ↔ a ≤ b := by
  rw [ne_eq, cmpLin_eq_gt, not_lt]

theorem cmpLin_symm {K : Type} [LinearOrder K] : CmpSymm (cmpLin (K := K)) := by
  intro a b
  unfold cmpLin
  rcases lt_trichotomy a b with h | h | h
  · rw [if_pos h, if_neg (not_lt_of_lt h), if_neg (Ne.symm (ne_of_lt h))]; rfl
  · subst h
    rw [if_neg (lt_irrefl a), if_pos rfl]; rfl
  · rw [if_neg (not_lt_of_lt h), if_neg (Ne.symm (ne_of_lt h)), if_pos h]; rfl

theorem cmpLin_trans {K : Type} [LinearOrder K] : CmpTrans (cmpLin (K := K)) := by
  intro a b d h1 h2
  rw [cmpLin_ne_gt] at h1 h2 ⊢
  exact le_trans h1 h2

theorem cmpOpt_symm {α : Type} {c : α → α → Ordering} (h : CmpSymm c) :
    CmpSymm (cmpOpt c) := by
  intro a b
  cases a <;> cases b <;> simp [cmpOpt, Ordering.swap]
  exact h _ _

theorem cmpOpt_trans {α : Type} {c : α → α → Ordering} (ht : CmpTrans c) :
    CmpTrans (cmpOpt c) := by
  intro a b d h1 h2
  cases a with
  | none => cases d <;> simp [cmpOpt]
  | some x =>
    cases b with
    | none => simp [cmpOpt] at h1
    | some y =>
      cases d with
      | none => simp [cmpOpt] at h2
      | some z => exact ht x y z h1 h2

theorem swap_ne_gt {o : Ordering} : o.swap ≠ Ordering.gt ↔ o ≠ Ordering.lt := by
  cases o <;> simp [Ordering.swap]

theorem sortLe_trans {α : Type} {c : α → α → Ordering} (hs : CmpSymm c) (ht : CmpTrans c)
    (asc : Bool) :
    ∀ a b d, sortLe c asc a b = true → sortLe c asc b d = true → sortLe c asc a d = true := by
  intro a b d h1 h2
  cases asc <;> simp only [sortLe, if_true, if_false, Bool.false_eq_true, decide_eq_true_eq,
    cond_false, cond_true] at h1 h2 ⊢
  · rw [swap_ne_gt] at h1 h2 ⊢
    have h1g : c b a ≠ Ordering.gt := by
      intro hg; apply h1; rw [hs a b, hg]; rfl
    have h2g : c d b ≠ Ordering.gt := by
      intro hg; apply h2; rw [hs b d, hg]; rfl
    intro hl; have := ht d b a h2g h1g
    apply this; rw [hs d a, hl]; rfl
  · exact ht a b d h1 h2

theorem sortLe_total {α : Type} {c : α → α → Ordering} (hs : CmpSymm c) (asc : Bool)
    (a b : α) : sortLe c asc a b || sortLe c asc b a := by
  cases asc <;> simp only [sortLe, if_true, if_false, Bool.false_eq_true, Bool.or_eq_true,
    decide_eq_true_eq]
  · rw [swap_ne_gt, swap_ne_gt]
    rcases h : c a b with _ | _ | _
    · right; intro hl; rw [hs b a, h] at hl; exact absurd hl (by simp [Ordering.swap])
    · left; simp
    · left; simp
  · rcases h : c a b with _ | _ | _
    · left; simp
    · left; simp
    · right; intro hg; rw [hs b a, h] at hg; exact absurd hg (by simp [Ordering.swap])

theorem sortLe_both_eq {α : Type} {c : α → α → Ordering} (hs : CmpSymm c) {asc : Bool}
    {a b : α} (h1 : sortLe c asc a b = true) (h2 : sortLe c asc b a = true) :
    c a b = Ordering.eq := by
  cases asc <;> simp only [sortLe, if_true, if_false, Bool.false_eq_true,
    decide_eq_true_eq] at h1 h2
  · rw [swap_ne_gt] at h1 h2
    rcases h : c a b with _ | _ | _
    · exact absurd h h1
    · rfl
    · exfalso; apply h2; rw [hs b a, h]; rfl
  · rcases h : c a b with _ | _ | _
    · exfalso; apply h2; rw [hs b a, h]; rfl
    · rfl
    · exact absurd h h1

/-! ### Stable-sort facts -/

theorem mergeSort_pair {α : Type} (le : α → α → Bool) (a b : α) :
    List.mergeSort [a, b] le = if le a b then [a, b] else [b, a] := by
  rw [List.mergeSort]
  simp [List.splitInTwo, List.splitAt_eq, List.mergeSort, List.merge]

theorem sortByCmp_perm {α : Type} (c : α → α → Ordering) (asc : Bool) (l : List α) :
    (sortByCmp c asc l).Perm l :=
  List.mergeSort_perm l _

theorem sortByCmp_pairwise {α : Type} {c : α → α → Ordering} (hs : CmpSymm c)
    (ht : CmpTrans c) (asc : Bool) (l : List α) :
    (sortByCmp c asc l).Pairwise (fun a b => sortLe c asc a b = true) :=
  @List.sorted_mergeSort _ (sortLe c asc) (sortLe_trans hs ht asc)
    (sortLe_total hs asc) l

theorem sortByCmp_idem {α : Type} {c : α → α → Ordering} (hs : CmpSymm c) (ht : CmpTrans c)
    (asc : Bool) (l : List α) :
    sortByCmp c asc (sortByCmp c asc l) = sortByCmp c asc l :=
  List.mergeSort_of_sorted (sortByCmp_pairwise hs ht asc l)

theorem sortByCmp_pair {α : Type} (c : α → α → Ordering) (asc : Bool) (a b : α) :
    sortByCmp c asc [a, b] = if sortLe c asc a b then [a, b] else [b, a] :=
  mergeSort_pair _ a b

/-- A permutation between two lists sorted by the same relation, antisymmetric
on the members, is the identity. -/
theorem eq_of_perm_of_pairwise {α : Type} {r : α → α → Prop} (l₁ : List α) :
    ∀ l₂ : List α, l₁.Perm l₂ → l₁.Pairwise r → l₂.Pairwise r →
      (∀ a, a ∈ l₁ → ∀ b, b ∈ l₁ → r a b → r b a → a = b) → l₁ = l₂ := by
  induction l₁ with
  | nil => intro l₂ p _ _ _; exact p.nil_eq
  | cons x xs ih =>
    intro l₂ p h₁ h₂ anti
    cases l₂ with
    | nil => exact p.symm.nil_eq.symm
    | cons y ys =>
      have hxy : x = y := by
        by_contra hne
        have hx2 : x ∈ y :: ys := p.mem_iff.mp (List.mem_cons_self x xs)
        have hy1 : y ∈ x :: xs := p.mem_iff.mpr (List.mem_cons_self y ys)
        have hxys : x ∈ ys := by
          rcases List.mem_cons.mp hx2 with h | h
          · exact absurd h hne
          · exact h
        have hyxs : y ∈ xs := by
          rcases List.mem_cons.mp hy1 with h | h
          · exact absurd h.symm hne
          · exact h
        have hrxy : r x y := (List.pairwise_cons.mp h₁).1 y hyxs
        have hryx : r y x := (List.pairwise_cons.mp h₂).1 x hxys
        exact hne (anti x (List.mem_cons_self x xs) y hy1 hrxy hryx)
      subst hxy
      have ptail : xs.Perm ys := p.cons_inv
      have htail := ih ys ptail (List.pairwise_cons.mp h₁).2 (List.pairwise_cons.mp h₂).2
        (fun a ha b hb => anti a (List.mem_cons_of_mem _ ha) b (List.mem_cons_of_mem _ hb))
      rw [htail]

theorem pairwise_keys_anti {α : Type} {c : α → α → Ordering} (hs : CmpSymm c) :
    ∀ {l : List α}, (l.Pairwise fun a b => c a b ≠ Ordering.eq) →
      ∀ a, a ∈ l → ∀ b, b ∈ l → c a b = Ordering.eq → a = b := by
  intro l
  induction l with
  | nil => intro _ a ha; exact absurd ha (List.not_mem_nil a)
  | cons x xs ih =>
    intro hdist a ha b hb heq
    obtain ⟨hx, htail⟩ := List.pairwise_cons.mp hdist
    rcases List.mem_cons.mp ha with rfl | ha₂ <;> rcases List.mem_cons.mp hb with rfl | hb₂
    · rfl
    · exact absurd heq (hx b hb₂)
    · exact absurd (by rw [hs b a, heq]; rfl) (hx a ha₂)
    · exact ih htail a ha₂ b hb₂ heq

/-- Sorting in the flipped direction and then back restores a list that was
sorted in the original direction and has pairwise-distinct keys. -/
theorem sortByCmp_toggle_restore {α : Type} {c : α → α → Ordering} (hs : CmpSymm c)
    (ht : CmpTrans c) {asc : Bool} {l : List α}
    (hsorted : l.Pairwise fun a b => sortLe c asc a b = true)
    (hdist : l.Pairwise fun a b => c a b ≠ Ordering.eq) :
    sortByCmp c asc (sortByCmp c (!asc) l) = l := by
  have p2 : l.Perm (sortByCmp c asc (sortByCmp c (!asc) l)) :=
    ((sortByCmp_perm c asc _).trans (sortByCmp_perm c (!asc) l)).symm
  have hpw := sortByCmp_pairwise hs ht asc (sortByCmp c (!asc) l)
  exact (eq_of_perm_of_pairwise l _ p2 hsorted hpw
    (fun a ha b hb hab hba =>
      pairwise_keys_anti hs hdist a ha b hb (sortLe_both_eq hs hab hba))).symm

/-! ### The ordering rules as the spec words them (for the refinement claims) -/

/-- Spec: the throughputs are "absent or tied within tolerance". -/
def specTiedOrAbsent (B A : DnsTestResult) : Prop :=
  (B.download_speed_mbps = none ∧ A.download_speed_mbps = none) ∨
  (∃ sB sA, B.download_speed_mbps = some sB ∧ A.download_speed_mbps = some sA ∧
    |sB - sA| ≤ 1 / 100)

/-- Spec: "B's latency exists and is strictly lower than A's (A's absent
latency counting as worse)". -/
def specLatencyWins (B A : DnsTestResult) : Prop :=
  ∃ lB, B.latency = some lB ∧
    (A.latency = none ∨ ∃ lA, A.latency = some lA ∧ lB < lA)

/-- Spec §4.3 DNS ordering: B replaces the current best A when B's throughput
exists and A's does not; or both exist, differ by more than 0.01 Mbps and B's
is larger; or the throughputs are absent/tied and B wins on latency. -/
def specDnsReplaces (B A : DnsTestResult) : Prop :=
  (B.download_speed_mbps.isSome = true ∧ A.download_speed_mbps = none) ∨
  (∃ sB sA, B.download_speed_mbps = some sB ∧ A.download_speed_mbps = some sA ∧
    |sB - sA| > 1 / 100 ∧ sB > sA) ∨
  (specTiedOrAbsent B A ∧ specLatencyWins B A)

/-- Spec §4.3: with no best yet, the first result with no error and at least
one of latency/throughput populated becomes best. -/
def specFirstBest (B : DnsTestResult) : Prop :=
  B.error = none ∧ (B.latency.isSome = true ∨ B.download_speed_mbps.isSome = true)

/-- Spec §4.3 mirror ordering: B replaces A when both have throughput and B's
is larger, or B has throughput and A does not. -/
def specMirrorReplaces (B A : MirrorTestResult) : Prop :=
  (∃ sB sA, B.speed_mbps = some sB ∧ A.speed_mbps = some sA ∧ sB > sA) ∨
  (B.speed_mbps.isSome = true ∧ A.speed_mbps = none)

theorem dnsLatencyIsBetter_iff {B A : DnsTestResult} :
    dnsLatencyIsBetter B A = true ↔ specLatencyWins B A := by
  unfold dnsLatencyIsBetter specLatencyWins
  rcases hB : B.latency with _ | lB <;> rcases hA : A.latency with _ | lA <;> simp [hB, hA]

theorem dnsIsBetter_iff {B A : DnsTestResult} :
    dnsIsBetter B A = true ↔ specDnsReplaces B A := by
  unfold dnsIsBetter specDnsReplaces specTiedOrAbsent
  rcases hB : B.download_speed_mbps with _ | sB <;>
    rcases hA : A.download_speed_mbps with _ | sA
  · simpa [hB, hA] using dnsLatencyIsBetter_iff
  · simp [hB, hA]
  · simp [hB, hA]
  · show (if |sB - sA| > 1 / 100 then decide (sB > sA) else dnsLatencyIsBetter B A) = true ↔ _
    by_cases h : |sB - sA| > 1 / 100
    · rw [if_pos h]
      constructor
      · intro hlt
        exact Or.inr (Or.inl ⟨sB, sA, rfl, rfl, h, of_decide_eq_true hlt⟩)
      · rintro (⟨_, hno⟩ | ⟨x, y, hx, hy, _, hgt⟩ | ⟨htie, _⟩)
        · exact absurd hno (by simp)
        · injection hx with hx
          injection hy with hy
          subst hx
          subst hy
          exact decide_eq_true hgt
        · rcases htie with ⟨hno, _⟩ | ⟨x, y, hx, hy, hle⟩
          · exact absurd hno (by simp)
          · injection hx with hx
            injection hy with hy
            subst hx
            subst hy
            exact absurd hle (not_le.mpr h)
    · rw [if_neg h, dnsLatencyIsBetter_iff]
      constructor
      · intro hl
        exact Or.inr (Or.inr ⟨Or.inr ⟨sB, sA, rfl, rfl, not_lt.mp h⟩, hl⟩)
      · rintro (⟨_, hno⟩ | ⟨x, y, hx, hy, hgt, _⟩ | ⟨_, hl⟩)
        · exact absurd hno (by simp)
        · injection hx with hx
          injection hy with hy
          subst hx
          subst hy
          exact absurd hgt h
        · exact hl

theorem mirrorIsBetter_iff {B A : MirrorTestResult} :
    mirrorIsBetter B A = true ↔ specMirrorReplaces B A := by
  unfold mirrorIsBetter specMirrorReplaces
  rcases hB : B.speed_mbps with _ | sB <;> rcases hA : A.speed_mbps with _ | sA <;>
    simp [hB, hA]

/-! ### Field bookkeeping for `record_result` / `sort_results` -/

theorem sort_results_only_lists (app : App) :
    app.sort_results.state = app.state ∧
    app.sort_results.mode = app.mode ∧
    app.sort_results.dns_servers = app.dns_servers ∧
    app.sort_results.mirrors = app.mirrors ∧
    app.sort_results.best_result = app.best_result ∧
    app.sort_results.best_mirror_result = app.best_mirror_result ∧
    app.sort_results.testing_index = app.testing_index ∧
    app.sort_results.sort_column = app.sort_column ∧
    app.sort_results.sort_ascending = app.sort_ascending ∧
    app.sort_results.last_result = app.last_result ∧
    app.sort_results.last_mirror_result = app.last_mirror_result := by
  unfold App.sort_results
  cases app.sort_column
  · exact ⟨rfl, rfl, rfl, rfl, rfl, rfl, rfl, rfl, rfl, rfl, rfl⟩
  · exact ⟨rfl, rfl, rfl, rfl, rfl, rfl, rfl, rfl, rfl, rfl, rfl⟩
  · dsimp only; split
    · exact ⟨rfl, rfl, rfl, rfl, rfl, rfl, rfl, rfl, rfl, rfl, rfl⟩
    · exact ⟨rfl, rfl, rfl, rfl, rfl, rfl, rfl, rfl, rfl, rfl, rfl⟩
  · exact ⟨rfl, rfl, rfl, rfl, rfl, rfl, rfl, rfl, rfl, rfl, rfl⟩

theorem finish_testing_best (app : App) :
    app.finish_testing.best_result = app.best_result := by
  unfold App.finish_testing
  exact (sort_results_only_lists _).2.2.2.2.1

theorem finish_testing_best_mirror (app : App) :
    app.finish_testing.best_mirror_result = app.best_mirror_result := by
  unfold App.finish_testing
  exact (sort_results_only_lists _).2.2.2.2.2.1

theorem finish_testing_state (app : App) :
    app.finish_testing.state = AppState.Results := by
  unfold App.finish_testing
  exact (sort_results_only_lists _).1

theorem record_result_core_best (app : App) (B : DnsTestResult) :
    (app.record_result_core B).best_result =
      match app.best_result with
      | some best => if dnsIsBetter B best then some B else some best
      | none =>
          if B.error.isNone && (B.latency.isSome || B.download_speed_mbps.isSome) then some B
          else none := by
  unfold App.record_result_core
  cases h : app.best_result <;> simp only [h] <;> split <;> rfl

theorem record_result_best (app : App) (B : DnsTestResult) :
    (app.record_result B).best_result = (app.record_result_core B).best_result := by
  unfold App.record_result
  dsimp only
  split
  · exact finish_testing_best _
  · rfl

theorem record_mirror_result_core_best (app : App) (B : MirrorTestResult) :
    (app.record_mirror_result_core B).best_mirror_result =
      match app.best_mirror_result with
      | some best => if mirrorIsBetter B best then some B else some best
      | none =>
          if B.error.isNone && B.speed_mbps.isSome then some B
          else none := by
  unfold App.record_mirror_result_core
  cases h : app.best_mirror_result <;> simp only [h] <;> split <;> rfl

theorem record_mirror_result_best (app : App) (B : MirrorTestResult) :
    (app.record_mirror_result B).best_mirror_result =
      (app.record_mirror_result_core B).best_mirror_result := by
  unfold App.record_mirror_result
  dsimp only
  split
  · exact finish_testing_best_mirror _
  · rfl

theorem firstBest_cond_iff {B : DnsTestResult} :
    (B.error.isNone && (B.latency.isSome || B.download_speed_mbps.isSome)) = true ↔
      specFirstBest B := by
  unfold specFirstBest
  simp [Bool.and_eq_true, Bool.or_eq_true, Option.isNone_iff_eq_none]

theorem record_result_keeps_best (app : App) (B : DnsTestResult)
    (h : app.best_result.isSome = true) :
    (app.record_result B).best_result.isSome = true := by
  rw [record_result_best, record_result_core_best]
  rcases happ : app.best_result with _ | A
  · rw [happ] at h
    simp at h
  · simp only []
    split <;> rfl

theorem foldl_record_keeps_best (rs : List DnsTestResult) :
    ∀ app : App, app.best_result.isSome = true →
      (rs.foldl App.record_result app).best_result.isSome = true := by
  induction rs with
  | nil => intro app h; exact h
  | cons r rs ih => intro app h; exact ih _ (record_result_keeps_best app r h)

theorem record_mirror_keeps_best (app : App) (B : MirrorTestResult)
    (h : app.best_mirror_result.isSome = true) :
    (app.record_mirror_result B).best_mirror_result.isSome = true := by
  rw [record_mirror_result_best, record_mirror_result_core_best]
  rcases happ : app.best_mirror_result with _ | A
  · rw [happ] at h
    simp at h
  · simp only []
    split <;> rfl

theorem foldl_record_mirror_keeps_best (rs : List MirrorTestResult) :
    ∀ app : App, app.best_mirror_result.isSome = true →
      (rs.foldl App.record_mirror_result app).best_mirror_result.isSome = true := by
  induction rs with
  | nil => intro app h; exact h
  | cons r rs ih => intro app h; exact ih _ (record_mirror_keeps_best app r h)

/-! ### Concrete fixtures for witnesses and counterexamples -/

/-- An `App` as `App::default()` builds it (distro detection abstracted to
`Unknown`; as in the source, the default sort is descending download speed). -/
def app0 : App :=
  { mode := AppMode.Dns
    state := AppState.Input
    dns_servers := []
    mirrors := []
    results := []
    mirror_results := []
    last_result := none
    last_mirror_result := none
    best_result := none
    best_mirror_result := none
    testing_index := 0
    sort_column := SortColumn.DownloadSpeed
    sort_ascending := false
    should_quit := false
    error_message := none
    status_message := none
    detected_distro := Distro.Unknown
    tick_count := 0 }

/-- Latency measured, no throughput. -/
def rLat10 : DnsTestResult :=
  { ip := "1.1.1.1", latency := some 10, download_speed_mbps := none, error := none }

/-- Throughput 5 Mbps and an error recorded by a later stage. -/
def rSpeed5Err : DnsTestResult :=
  { ip := "8.8.8.8", latency := none, download_speed_mbps := some 5,
    error := some "Download test failed: connection reset" }

/-- A valid-but-uninformative result: no metrics. -/
def rEmpty : DnsTestResult :=
  { ip := "9.9.9.9", latency := none, download_speed_mbps := none, error := none }

/-- Throughput 1 Mbps. -/
def rSpeed1 : DnsTestResult :=
  { ip := "4.4.4.4", latency := some 7, download_speed_mbps := some 1, error := none }

/-- Throughput 2 Mbps. -/
def rSpeed2 : DnsTestResult :=
  { ip := "5.5.5.5", latency := some 9, download_speed_mbps := some 2, error := none }

/-- Latency present (5 ns). -/
def rLat5 : DnsTestResult :=
  { ip := "2.2.2.2", latency := some 5, download_speed_mbps := none, error := none }

/-- Latency absent. -/
def rLatNone : DnsTestResult :=
  { ip := "3.3.3.3", latency := none, download_speed_mbps := none,
    error := some "Latency test failed: timeout" }

/-! ### Claims -/

/-- C1: best-result replacement implements the per-mode ordering rules
exactly.  With a current best `A`, `record_result` installs `B` as best
precisely under the spec's DNS ordering rule (`specDnsReplaces`); with no
best yet, `B` becomes best precisely when it has no error and at least one
of latency/throughput populated (`specFirstBest`); `record_mirror_result`
installs `B` over `A` precisely under the spec's mirror rule
(`specMirrorReplaces`). -/
theorem record_result_ordering_rules :
    (∀ (app : App) (A B : DnsTestResult), app.best_result = some A →
      (specDnsReplaces B A → (app.record_result B).best_result = some B) ∧
      (¬ specDnsReplaces B A → (app.record_result B).best_result = some A)) ∧
    (∀ (app : App) (B : DnsTestResult), app.best_result = none →
      (specFirstBest B → (app.record_result B).best_result = some B) ∧
      (¬ specFirstBest B → (app.record_result B).best_result = none)) ∧
    (∀ (app : App) (A B : MirrorTestResult), app.best_mirror_result = some A →
      (specMirrorReplaces B A → (app.record_mirror_result B).best_mirror_result = some B) ∧
      (¬ specMirrorReplaces B A →
        (app.record_mirror_result B).best_mirror_result = some A)) := by
  refine ⟨?_, ?_, ?_⟩
  · intro app A B hA
    rw [record_result_best, record_result_core_best]
    simp only [hA]
    constructor
    · intro hspec
      rw [if_pos (dnsIsBetter_iff.mpr hspec)]
    · intro hspec
      rw [if_neg (fun ht => hspec (dnsIsBetter_iff.mp ht))]
  · intro app B hA
    rw [record_result_best, record_result_core_best]
    simp only [hA]
    constructor
    · intro hspec
      rw [if_pos (firstBest_cond_iff.mpr hspec)]
    · intro hspec
      rw [if_neg (fun ht => hspec (firstBest_cond_iff.mp ht))]
  · intro app A B hA
    rw [record_mirror_result_best, record_mirror_result_core_best]
    simp only [hA]
    constructor
    · intro hspec
      rw [if_pos (mirrorIsBetter_iff.mpr hspec)]
    · intro hspec
      rw [if_neg (fun ht => hspec (mirrorIsBetter_iff.mp ht))]

/-- Witness for C1 at a concrete input: a result with throughput replaces a
best that has none. -/
theorem record_result_ordering_rules_witness :
    (({ app0 with best_result := some rLat10 }).record_result rSpeed5Err).best_result =
      some rSpeed5Err :=
  (record_result_ordering_rules.1 _ rLat10 rSpeed5Err rfl).1 (Or.inl ⟨rfl, rfl⟩)

/-- C2: best-pointer monotonicity.  Once `best_result`
(resp. `best_mirror_result`) is set, a `record_result`
(resp. `record_mirror_result`) call either leaves it unchanged or replaces it
with a strictly better result under the §4.3 ordering rule; across any call
sequence it is never cleared; only `reset` clears it. -/
theorem best_pointer_monotonic :
    (∀ (app : App) (A B : DnsTestResult), app.best_result = some A →
      (app.record_result B).best_result = some A ∨
      ((app.record_result B).best_result = some B ∧ specDnsReplaces B A)) ∧
    (∀ (app : App) (rs : List DnsTestResult), app.best_result.isSome = true →
      (rs.foldl App.record_result app).best_result.isSome = true) ∧
    (∀ (app : App) (A B : MirrorTestResult), app.best_mirror_result = some A →
      (app.record_mirror_result B).best_mirror_result = some A ∨
      ((app.record_mirror_result B).best_mirror_result = some B ∧ specMirrorReplaces B A)) ∧
    (∀ (app : App) (rs : List MirrorTestResult), app.best_mirror_result.isSome = true →
      (rs.foldl App.record_mirror_result app).best_mirror_result.isSome = true) ∧
    (∀ app : App, app.reset.best_result = none ∧ app.reset.best_mirror_result = none) := by
  refine ⟨?_, fun app rs => foldl_record_keeps_best rs app, ?_,
    fun app rs => foldl_record_mirror_keeps_best rs app, fun app => ⟨rfl, rfl⟩⟩
  · intro app A B hA
    rw [record_result_best, record_result_core_best]
    simp only [hA]
    by_cases hb : dnsIsBetter B A = true
    · exact Or.inr ⟨by rw [if_pos hb], dnsIsBetter_iff.mp hb⟩
    · exact Or.inl (by rw [if_neg hb])
  · intro app A B hA
    rw [record_mirror_result_best, record_mirror_result_core_best]
    simp only [hA]
    by_cases hb : mirrorIsBetter B A = true
    · exact Or.inr ⟨by rw [if_pos hb], mirrorIsBetter_iff.mp hb⟩
    · exact Or.inl (by rw [if_neg hb])

/-- Witness for C2 at a concrete input: a metric-free result does not displace
an existing best. -/
theorem best_pointer_monotonic_witness :
    (({ app0 with best_result := some rSpeed1 }).record_result rEmpty).best_result =
      some rSpeed1 ∨
    ((({ app0 with best_result := some rSpeed1 }).record_result rEmpty).best_result =
      some rEmpty ∧ specDnsReplaces rEmpty rSpeed1) :=
  best_pointer_monotonic.1 _ rSpeed1 rEmpty rfl

/-- C9 (implicit): once a best exists, the replacement decision never examines
the new result's error field — a faster result replaces the best even with an
error set; the no-error requirement only gates the first best. -/
theorem record_result_ignores_error_once_best_set :
    (∀ (app : App) (A B : DnsTestResult), app.best_result = some A →
      ((B.download_speed_mbps.isSome = true ∧ A.download_speed_mbps = none) ∨
       (∃ sB sA, B.download_speed_mbps = some sB ∧ A.download_speed_mbps = some sA ∧
         |sB - sA| > 1 / 100 ∧ sB > sA)) →
      (app.record_result B).best_result = some B) ∧
    (∀ (app : App) (B : DnsTestResult), app.best_result = none → B.error.isSome = true →
      (app.record_result B).best_result = none) := by
  constructor
  · intro app A B hA hcase
    rw [record_result_best, record_result_core_best]
    simp only [hA]
    refine if_pos (dnsIsBetter_iff.mpr ?_)
    rcases hcase with h | h
    · exact Or.inl h
    · exact Or.inr (Or.inl h)
  · intro app B hA herr
    rw [record_result_best, record_result_core_best]
    simp only [hA]
    rw [if_neg]
    intro hc
    rw [Bool.and_eq_true] at hc
    rw [Option.isSome_iff_exists] at herr
    obtain ⟨e, he⟩ := herr
    rw [he] at hc
    exact absurd hc.1 (by simp)

/-- Witness for C9 at a concrete input: `rSpeed5Err` carries an error yet
replaces the metric-only best. -/
theorem record_result_ignores_error_once_best_set_witness :
    (({ app0 with best_result := some rLat10 }).record_result rSpeed5Err).best_result =
      some rSpeed5Err ∧ rSpeed5Err.error.isSome = true :=
  ⟨record_result_ignores_error_once_best_set.1 _ rLat10 rSpeed5Err rfl (Or.inl ⟨rfl, rfl⟩),
    rfl⟩

/-- C7: `reset` returns to `Input`, clears both results lists, both
best-pointers, both last-result fields, the test cursor and the status
message, and leaves the DNS candidate list and the mirror list unchanged. -/
theorem reset_frame (app : App) :
    app.reset.state = AppState.Input ∧
    app.reset.results = [] ∧
    app.reset.mirror_results = [] ∧
    app.reset.best_result = none ∧
    app.reset.best_mirror_result = none ∧
    app.reset.last_result = none ∧
    app.reset.last_mirror_result = none ∧
    app.reset.testing_index = 0 ∧
    app.reset.status_message = none ∧
    app.reset.dns_servers = app.dns_servers ∧
    app.reset.mirrors = app.mirrors :=
  ⟨rfl, rfl, rfl, rfl, rfl, rfl, rfl, rfl, rfl, rfl, rfl⟩

/-- C5: when the outer 7.5-second deadline elapses, `run_full_test` returns a
result with no latency, no throughput and the dedicated timed-out message —
regardless of the Stage-1 outcome; when Stage 1 fails within the deadline,
the result carries the latency error and no throughput (Stage 2 skipped). -/
theorem run_full_test_timeout_semantics :
    (∀ (ip : String) (stage1 : Except String Nat) (stage2 : Except String Rat),
      (run_full_test ip true stage1 stage2).latency = none ∧
      (run_full_test ip true stage1 stage2).download_speed_mbps = none ∧
      (run_full_test ip true stage1 stage2).error =
        some "Test timed out (exceeded 7.5s)") ∧
    (∀ (ip e : String) (stage2 : Except String Rat),
      (run_full_test ip false (Except.error e) stage2).latency = none ∧
      (run_full_test ip false (Except.error e) stage2).download_speed_mbps = none ∧
      (run_full_test ip false (Except.error e) stage2).error =
        some ("Latency test failed: " ++ e)) :=
  ⟨fun _ _ _ => ⟨rfl, rfl, rfl⟩, fun _ _ _ => ⟨rfl, rfl, rfl⟩⟩

/-- A mirror CSV row whose distro label maps to no known tag. -/
def mrFedora : MirrorRecord :=
  { name := "Fedora Main", url := "https://mirror.example/fedora", distro := "fedora" }

/-- C8: `load_mirrors` maps each parsed row's free-text distro label
case-insensitively onto the closed tag set (unrecognized labels to `Unknown`)
and keeps exactly the rows whose tag equals the host distro or is one of the
two global tags (`Docker`, `AndroidSDK`); in particular a row mapping to
`Unknown` is dropped when the host distro is `Ubuntu`. -/
theorem load_mirrors_inclusion :
    (∀ (rows : List MirrorRecord) (d : Distro),
      load_mirrors rows d =
        (rows.filter (fun r =>
            decide (parseMirrorDistro r.distro = d ∨
              parseMirrorDistro r.distro = Distro.Docker ∨
              parseMirrorDistro r.distro = Distro.AndroidSDK))).map
          (fun r => { name := r.name, url := r.url, distro := parseMirrorDistro r.distro })) ∧
    (∀ s t : String, lowerString s = lowerString t →
      parseMirrorDistro s = parseMirrorDistro t) ∧
    (∀ (rows : List MirrorRecord) (r : MirrorRecord),
      parseMirrorDistro r.distro = Distro.Unknown →
      load_mirrors (r :: rows) Distro.Ubuntu = load_mirrors rows Distro.Ubuntu) := by
  refine ⟨?_, ?_, ?_⟩
  · intro rows d
    induction rows with
    | nil => rfl
    | cons r rest ih =>
      by_cases h : parseMirrorDistro r.distro = d ∨
          parseMirrorDistro r.distro = Distro.Docker ∨
          parseMirrorDistro r.distro = Distro.AndroidSDK
      · simp only [load_mirrors, List.filter_cons, decide_eq_true h, if_pos h, ih,
          List.map_cons, if_true]
      · simp only [load_mirrors, List.filter_cons, decide_eq_false h, if_neg h, ih,
          Bool.false_eq_true, if_false]
  · intro s t hst
    unfold parseMirrorDistro
    rw [hst]
  · intro rows r h
    have hno : ¬(parseMirrorDistro r.distro = Distro.Ubuntu ∨
        parseMirrorDistro r.distro = Distro.Docker ∨
        parseMirrorDistro r.distro = Distro.AndroidSDK) := by
      rw [h]
      rintro (hc | hc | hc) <;> exact Distro.noConfusion hc
    simp only [load_mirrors, if_neg hno]

/-- Witness for C8 at a concrete input: a `fedora`-tagged row is excluded on an
Ubuntu host. -/
theorem load_mirrors_inclusion_witness :
    load_mirrors [mrFedora] Distro.Ubuntu = load_mirrors [] Distro.Ubuntu :=
  load_mirrors_inclusion.2.2 [] mrFedora (by decide)

/-! ### Laws for the concrete column comparators -/

theorem cmpByIp_symm : CmpSymm cmpByIp :=
  fun a b => cmpLin_symm a.ip b.ip

theorem cmpByIp_trans : CmpTrans cmpByIp :=
  fun a b d => cmpLin_trans a.ip b.ip d.ip

theorem cmpByLatency_symm : CmpSymm cmpByLatency :=
  fun a b => cmpOpt_symm cmpLin_symm a.latency b.latency

theorem cmpByLatency_trans : CmpTrans cmpByLatency :=
  fun a b d => cmpOpt_trans cmpLin_trans a.latency b.latency d.latency

theorem cmpBySpeed_symm : CmpSymm cmpBySpeed :=
  fun a b => cmpOpt_symm cmpLin_symm a.download_speed_mbps b.download_speed_mbps

theorem cmpBySpeed_trans : CmpTrans cmpBySpeed :=
  fun a b d =>
    cmpOpt_trans cmpLin_trans a.download_speed_mbps b.download_speed_mbps d.download_speed_mbps

theorem cmpMirrorBySpeed_symm : CmpSymm cmpMirrorBySpeed :=
  fun a b => cmpOpt_symm cmpLin_symm a.speed_mbps b.speed_mbps

theorem cmpMirrorBySpeed_trans : CmpTrans cmpMirrorBySpeed :=
  fun a b d => cmpOpt_trans cmpLin_trans a.speed_mbps b.speed_mbps d.speed_mbps

theorem cmpMirrorByName_symm : CmpSymm cmpMirrorByName :=
  fun a b => cmpLin_symm a.name b.name

theorem cmpMirrorByName_trans : CmpTrans cmpMirrorByName :=
  fun a b d => cmpLin_trans a.name b.name d.name

/-- With the Latency column active, `sort_results` sorts the DNS results by
the latency comparator. -/
theorem sort_results_latency (app : App) (h : app.sort_column = SortColumn.Latency) :
    (app.sort_results).results = sortByCmp cmpByLatency app.sort_ascending app.results := by
  unfold App.sort_results
  rw [h]

/-- C3 counterexample: with latency values `[some 5, none]` an ascending
latency sort produces `[none, some 5]` — the result with an absent latency is
placed before the one with a present latency, refuting the claim that
present-latency results come first. -/
theorem latency_sort_counterexample :
    (({ app0 with
        sort_column := SortColumn.Latency
        sort_ascending := true
        results := [rLat5, rLatNone] }).sort_results).results = [rLatNone, rLat5] ∧
    rLat5.latency.isSome = true ∧ rLatNone.latency = none ∧ rLatNone ≠ rLat5 := by
  refine ⟨?_, rfl, rfl, by decide⟩
  show sortByCmp cmpByLatency true [rLat5, rLatNone] = [rLatNone, rLat5]
  rw [sortByCmp_pair]
  decide

/-- C3 amended: sorting by the Latency column in ascending direction places
every result with an absent latency before every result with a present
latency (missing counts as less than any present value, per the `Option`
ordering with `None` least); descending is the exact reverse. -/
theorem latency_sort_missing_first (app : App) (h : app.sort_column = SortColumn.Latency) :
    (app.sort_ascending = true →
      ∀ (i j : Nat) (x y : DnsTestResult), i < j →
        (app.sort_results).results[i]? = some x →
        (app.sort_results).results[j]? = some y →
        x.latency.isSome = true → y.latency.isSome = true) ∧
    (app.sort_ascending = false →
      ∀ (i j : Nat) (x y : DnsTestResult), i < j →
        (app.sort_results).results[i]? = some x →
        (app.sort_results).results[j]? = some y →
        x.latency = none → y.latency = none) := by
  have hpw := sortByCmp_pairwise cmpByLatency_symm cmpByLatency_trans
    app.sort_ascending app.results
  rw [List.pairwise_iff_getElem] at hpw
  constructor
  · intro hasc i j x y hij hx hy hxs
    rw [sort_results_latency app h] at hx hy
    obtain ⟨hi, hxi⟩ := List.getElem?_eq_some_iff.mp hx
    obtain ⟨hj, hyj⟩ := List.getElem?_eq_some_iff.mp hy
    have hrel := hpw i j hi hj hij
    rw [hxi, hyj, hasc] at hrel
    rcases hly : y.latency with _ | ly
    · exfalso
      obtain ⟨lx, hlx⟩ := Option.isSome_iff_exists.mp hxs
      rw [sortLe, decide_eq_true_eq, if_pos rfl] at hrel
      unfold cmpByLatency at hrel
      rw [hlx, hly] at hrel
      exact hrel rfl
    · rfl
  · intro hasc i j x y hij hx hy hxn
    rw [sort_results_latency app h] at hx hy
    obtain ⟨hi, hxi⟩ := List.getElem?_eq_some_iff.mp hx
    obtain ⟨hj, hyj⟩ := List.getElem?_eq_some_iff.mp hy
    have hrel := hpw i j hi hj hij
    rw [hxi, hyj, hasc] at hrel
    rcases hly : y.latency with _ | ly
    · rfl
    · exfalso
      rw [sortLe, decide_eq_true_eq] at hrel
      rw [if_neg (by simp)] at hrel
      unfold cmpByLatency at hrel
      rw [hxn, hly] at hrel
      exact hrel rfl

/-- Witness for C3's amended theorem at a concrete input: two present
latencies in ascending order. -/
theorem latency_sort_missing_first_witness : rLat10.latency.isSome = true := by
  have hlist : (({ app0 with
      sort_column := SortColumn.Latency
      sort_ascending := true
      results := [rLat5, rLat10] }).sort_results).results = [rLat5, rLat10] := by
    show sortByCmp cmpByLatency true [rLat5, rLat10] = [rLat5, rLat10]
    rw [sortByCmp_pair]
    decide
  exact (latency_sort_missing_first _ rfl).1 rfl 0 1 rLat5 rLat10 (by decide)
    (by rw [hlist]; decide) (by rw [hlist]; decide) rfl

/-- C10 (implicit): in Mirror mode the sort-column ring reaches Ip and
Latency (DownloadSpeed → Name → Ip → Latency), and with either of those
columns active `sort_results` sorts the DNS results vector while leaving
`mirror_results` — the list Mirror mode displays — exactly unchanged. -/
theorem mirror_sort_ring_and_frame :
    (∀ app : App, app.mode = AppMode.Mirror →
      (app.sort_column = SortColumn.DownloadSpeed →
        (app.cycle_sort_column).sort_column = SortColumn.Name) ∧
      (app.sort_column = SortColumn.Name →
        (app.cycle_sort_column).sort_column = SortColumn.Ip) ∧
      (app.sort_column = SortColumn.Ip →
        (app.cycle_sort_column).sort_column = SortColumn.Latency)) ∧
    (∀ app : App, app.sort_column = SortColumn.Ip →
      (app.sort_results).mirror_results = app.mirror_results ∧
      (app.sort_results).results = sortByCmp cmpByIp app.sort_ascending app.results) ∧
    (∀ app : App, app.sort_column = SortColumn.Latency →
      (app.sort_results).mirror_results = app.mirror_results ∧
      (app.sort_results).results = sortByCmp cmpByLatency app.sort_ascending app.results) := by
  refine ⟨?_, ?_, ?_⟩
  · intro app hmode
    refine ⟨?_, ?_, ?_⟩ <;> intro hcol <;>
      (unfold App.cycle_sort_column
       rw [(sort_results_only_lists _).2.2.2.2.2.2.2.1]
       simp [hcol, hmode])
  · intro app h
    unfold App.sort_results
    rw [h]
    exact ⟨rfl, rfl⟩
  · intro app h
    unfold App.sort_results
    rw [h]
    exact ⟨rfl, rfl⟩

/-- Witness for C10 at a concrete input: cycling from DownloadSpeed in Mirror
mode lands on Name. -/
theorem mirror_sort_ring_and_frame_witness :
    (({ app0 with mode := AppMode.Mirror }).cycle_sort_column).sort_column =
      SortColumn.Name :=
  (mirror_sort_ring_and_frame.1 _ rfl).1 rfl

/-! ### Per-column equations for `sort_results` -/

theorem sort_results_eq_ip (app : App) (h : app.sort_column = SortColumn.Ip) :
    app.sort_results =
      { app with results := sortByCmp cmpByIp app.sort_ascending app.results } := by
  unfold App.sort_results
  rw [h]

theorem sort_results_eq_latency (app : App) (h : app.sort_column = SortColumn.Latency) :
    app.sort_results =
      { app with results := sortByCmp cmpByLatency app.sort_ascending app.results } := by
  unfold App.sort_results
  rw [h]

theorem sort_results_eq_speed_dns (app : App) (h : app.sort_column = SortColumn.DownloadSpeed)
    (hm : app.mode = AppMode.Dns) :
    app.sort_results =
      { app with results := sortByCmp cmpBySpeed app.sort_ascending app.results } := by
  unfold App.sort_results
  rw [h]
  dsimp only
  rw [if_pos hm]

theorem sort_results_eq_speed_mirror (app : App)
    (h : app.sort_column = SortColumn.DownloadSpeed) (hm : ¬app.mode = AppMode.Dns) :
    app.sort_results =
      { app with
        mirror_results := sortByCmp cmpMirrorBySpeed app.sort_ascending app.mirror_results } := by
  unfold App.sort_results
  rw [h]
  dsimp only
  rw [if_neg hm]

theorem sort_results_eq_name (app : App) (h : app.sort_column = SortColumn.Name) :
    app.sort_results =
      { app with
        mirror_results := sortByCmp cmpMirrorByName app.sort_ascending app.mirror_results } := by
  unfold App.sort_results
  rw [h]

/-- The list the active column sorts is already ordered in the current
direction and its active-column keys are pairwise distinct.  (Every state
reached through `finish_testing`/`cycle_sort_column`/`toggle_sort_direction`
satisfies the ordering half for the active column.) -/
def App.activeToggleReady (app : App) : Prop :=
  match app.sort_column with
  | SortColumn.Ip =>
      app.results.Pairwise (fun a b => sortLe cmpByIp app.sort_ascending a b = true) ∧
      app.results.Pairwise (fun a b => cmpByIp a b ≠ Ordering.eq)
  | SortColumn.Latency =>
      app.results.Pairwise (fun a b => sortLe cmpByLatency app.sort_ascending a b = true) ∧
      app.results.Pairwise (fun a b => cmpByLatency a b ≠ Ordering.eq)
  | SortColumn.DownloadSpeed =>
      if app.mode = AppMode.Dns then
        app.results.Pairwise (fun a b => sortLe cmpBySpeed app.sort_ascending a b = true) ∧
        app.results.Pairwise (fun a b => cmpBySpeed a b ≠ Ordering.eq)
      else
        app.mirror_results.Pairwise
          (fun a b => sortLe cmpMirrorBySpeed app.sort_ascending a b = true) ∧
        app.mirror_results.Pairwise (fun a b => cmpMirrorBySpeed a b ≠ Ordering.eq)
  | SortColumn.Name =>
      app.mirror_results.Pairwise
        (fun a b => sortLe cmpMirrorByName app.sort_ascending a b = true) ∧
      app.mirror_results.Pairwise (fun a b => cmpMirrorByName a b ≠ Ordering.eq)

/-- C6 amended: sorting twice with the same column and direction equals
sorting once, unconditionally; and toggling the direction twice restores the
state provided the list the active column sorts is already ordered in the
current direction (as it always is after any sort) and its active-column keys
are pairwise distinct.  (The original claim, quantified over arbitrary —
possibly unsorted — lists, is refuted by `sort_toggle_counterexample`.) -/
theorem sort_algebra_amended :
    (∀ app : App, app.sort_results.sort_results = app.sort_results) ∧
    (∀ app : App, app.activeToggleReady →
      app.toggle_sort_direction.toggle_sort_direction = app) := by
  constructor
  · intro app
    cases hcol : app.sort_column with
    | Ip =>
      rw [sort_results_eq_ip app hcol]
      rw [sort_results_eq_ip
        { app with results := sortByCmp cmpByIp app.sort_ascending app.results }
        (by exact hcol)]
      dsimp only
      rw [sortByCmp_idem cmpByIp_symm cmpByIp_trans]
    | Latency =>
      rw [sort_results_eq_latency app hcol]
      rw [sort_results_eq_latency
        { app with results := sortByCmp cmpByLatency app.sort_ascending app.results }
        (by exact hcol)]
      dsimp only
      rw [sortByCmp_idem cmpByLatency_symm cmpByLatency_trans]
    | DownloadSpeed =>
      by_cases hm : app.mode = AppMode.Dns
      · rw [sort_results_eq_speed_dns app hcol hm]
        rw [sort_results_eq_speed_dns
          { app with results := sortByCmp cmpBySpeed app.sort_ascending app.results }
          (by exact hcol) (by exact hm)]
        dsimp only
        rw [sortByCmp_idem cmpBySpeed_symm cmpBySpeed_trans]
      · rw [sort_results_eq_speed_mirror app hcol hm]
        rw [sort_results_eq_speed_mirror
          { app with
            mirror_results := sortByCmp cmpMirrorBySpeed app.sort_ascending app.mirror_results }
          (by exact hcol) (by exact hm)]
        dsimp only
        rw [sortByCmp_idem cmpMirrorBySpeed_symm cmpMirrorBySpeed_trans]
    | Name =>
      rw [sort_results_eq_name app hcol]
      rw [sort_results_eq_name
        { app with
          mirror_results := sortByCmp cmpMirrorByName app.sort_ascending app.mirror_results }
        (by exact hcol)]
      dsimp only
      rw [sortByCmp_idem cmpMirrorByName_symm cmpMirrorByName_trans]
  · intro app hready
    cases hcol : app.sort_column with
    | Ip =>
      simp only [App.activeToggleReady, hcol] at hready
      obtain ⟨hsorted, hdist⟩ := hready
      have e1 : app.toggle_sort_direction =
          { app with
            sort_ascending := !app.sort_ascending
            results := sortByCmp cmpByIp (!app.sort_ascending) app.results } := by
        unfold App.toggle_sort_direction
        rw [sort_results_eq_ip { app with sort_ascending := !app.sort_ascending }
          (by exact hcol)]
      rw [e1]
      have e2 : App.toggle_sort_direction
          { app with
            sort_ascending := !app.sort_ascending
            results := sortByCmp cmpByIp (!app.sort_ascending) app.results } =
          { app with
            sort_ascending := !(!app.sort_ascending)
            results := sortByCmp cmpByIp (!(!app.sort_ascending))
              (sortByCmp cmpByIp (!app.sort_ascending) app.results) } := by
        unfold App.toggle_sort_direction
        rw [sort_results_eq_ip
          { app with
            sort_ascending := !(!app.sort_ascending)
            results := sortByCmp cmpByIp (!app.sort_ascending) app.results }
          (by exact hcol)]
      rw [e2, Bool.not_not,
        sortByCmp_toggle_restore cmpByIp_symm cmpByIp_trans hsorted hdist]
    | Latency =>
      simp only [App.activeToggleReady, hcol] at hready
      obtain ⟨hsorted, hdist⟩ := hready
      have e1 : app.toggle_sort_direction =
          { app with
            sort_ascending := !app.sort_ascending
            results := sortByCmp cmpByLatency (!app.sort_ascending) app.results } := by
        unfold App.toggle_sort_direction
        rw [sort_results_eq_latency { app with sort_ascending := !app.sort_ascending }
          (by exact hcol)]
      rw [e1]
      have e2 : App.toggle_sort_direction
          { app with
            sort_ascending := !app.sort_ascending
            results := sortByCmp cmpByLatency (!app.sort_ascending) app.results } =
          { app with
            sort_ascending := !(!app.sort_ascending)
            results := sortByCmp cmpByLatency (!(!app.sort_ascending))
              (sortByCmp cmpByLatency (!app.sort_ascending) app.results) } := by
        unfold App.toggle_sort_direction
        rw [sort_results_eq_latency
          { app with
            sort_ascending := !(!app.sort_ascending)
            results := sortByCmp cmpByLatency (!app.sort_ascending) app.results }
          (by exact hcol)]
      rw [e2, Bool.not_not,
        sortByCmp_toggle_restore cmpByLatency_symm cmpByLatency_trans hsorted hdist]
    | DownloadSpeed =>
      by_cases hm : app.mode = AppMode.Dns
      · simp only [App.activeToggleReady, hcol, hm] at hready
        obtain ⟨hsorted, hdist⟩ := hready
        have e1 : app.toggle_sort_direction =
            { app with
              sort_ascending := !app.sort_ascending
              results := sortByCmp cmpBySpeed (!app.sort_ascending) app.results } := by
          unfold App.toggle_sort_direction
          rw [sort_results_eq_speed_dns { app with sort_ascending := !app.sort_ascending }
            (by exact hcol) (by exact hm)]
        rw [e1]
        have e2 : App.toggle_sort_direction
            { app with
              sort_ascending := !app.sort_ascending
              results := sortByCmp cmpBySpeed (!app.sort_ascending) app.results } =
            { app with
              sort_ascending := !(!app.sort_ascending)
              results := sortByCmp cmpBySpeed (!(!app.sort_ascending))
                (sortByCmp cmpBySpeed (!app.sort_ascending) app.results) } := by
          unfold App.toggle_sort_direction
          rw [sort_results_eq_speed_dns
            { app with
              sort_ascending := !(!app.sort_ascending)
              results := sortByCmp cmpBySpeed (!app.sort_ascending) app.results }
            (by exact hcol) (by exact hm)]
        rw [e2, Bool.not_not,
          sortByCmp_toggle_restore cmpBySpeed_symm cmpBySpeed_trans hsorted hdist]
      · simp only [App.activeToggleReady, hcol, hm] at hready
        obtain ⟨hsorted, hdist⟩ := hready
        have e1 : app.toggle_sort_direction =
            { app with
              sort_ascending := !app.sort_ascending
              mirror_results :=
                sortByCmp cmpMirrorBySpeed (!app.sort_ascending) app.mirror_results } := by
          unfold App.toggle_sort_direction
          rw [sort_results_eq_speed_mirror { app with sort_ascending := !app.sort_ascending }
            (by exact hcol) (by exact hm)]
        rw [e1]
        have e2 : App.toggle_sort_direction
            { app with
              sort_ascending := !app.sort_ascending
              mirror_results :=
                sortByCmp cmpMirrorBySpeed (!app.sort_ascending) app.mirror_results } =
            { app with
              sort_ascending := !(!app.sort_ascending)
              mirror_results := sortByCmp cmpMirrorBySpeed (!(!app.sort_ascending))
                (sortByCmp cmpMirrorBySpeed (!app.sort_ascending) app.mirror_results) } := by
          unfold App.toggle_sort_direction
          rw [sort_results_eq_speed_mirror
            { app with
              sort_ascending := !(!app.sort_ascending)
              mirror_results :=
                sortByCmp cmpMirrorBySpeed (!app.sort_ascending) app.mirror_results }
            (by exact hcol) (by exact hm)]
        rw [e2, Bool.not_not,
          sortByCmp_toggle_restore cmpMirrorBySpeed_symm cmpMirrorBySpeed_trans hsorted hdist]
    | Name =>
      simp only [App.activeToggleReady, hcol] at hready
      obtain ⟨hsorted, hdist⟩ := hready
      have e1 : app.toggle_sort_direction =
          { app with
            sort_ascending := !app.sort_ascending
            mirror_results :=
              sortByCmp cmpMirrorByName (!app.sort_ascending) app.mirror_results } := by
        unfold App.toggle_sort_direction
        rw [sort_results_eq_name { app with sort_ascending := !app.sort_ascending }
          (by exact hcol)]
      rw [e1]
      have e2 : App.toggle_sort_direction
          { app with
            sort_ascending := !app.sort_ascending
            mirror_results :=
              sortByCmp cmpMirrorByName (!app.sort_ascending) app.mirror_results } =
          { app with
            sort_ascending := !(!app.sort_ascending)
            mirror_results := sortByCmp cmpMirrorByName (!(!app.sort_ascending))
              (sortByCmp cmpMirrorByName (!app.sort_ascending) app.mirror_results) } := by
        unfold App.toggle_sort_direction
        rw [sort_results_eq_name
          { app with
            sort_ascending := !(!app.sort_ascending)
            mirror_results :=
              sortByCmp cmpMirrorByName (!app.sort_ascending) app.mirror_results }
          (by exact hcol)]
      rw [e2, Bool.not_not,
        sortByCmp_toggle_restore cmpMirrorByName_symm cmpMirrorByName_trans hsorted hdist]

/-- A concrete app whose results list is NOT sorted by the active column
(DownloadSpeed, ascending): speeds run 2 then 1. -/
def appCx : App :=
  { app0 with sort_ascending := true, results := [rSpeed2, rSpeed1] }

/-- State of `appCx` after one direction toggle. -/
def appCx1 : App :=
  { app0 with sort_ascending := false, results := [rSpeed2, rSpeed1] }

/-- State of `appCx` after two direction toggles. -/
def appCx2 : App :=
  { app0 with sort_ascending := true, results := [rSpeed1, rSpeed2] }

/-- C6 counterexample: the toggle half of the claim fails for an arbitrary
list.  `appCx` has pairwise-distinct DownloadSpeed keys, yet toggling the
direction twice leaves `[rSpeed1, rSpeed2]`, not the original
`[rSpeed2, rSpeed1]` — the first toggle sorts descending (keeping the order),
the second sorts ascending, so the net effect is a sort, not the identity. -/
theorem sort_toggle_counterexample :
    appCx.toggle_sort_direction.toggle_sort_direction.results ≠ appCx.results ∧
    appCx.results.Pairwise (fun a b => cmpBySpeed a b ≠ Ordering.eq) := by
  have hL1 : sortByCmp cmpBySpeed false [rSpeed2, rSpeed1] = [rSpeed2, rSpeed1] := by
    rw [sortByCmp_pair]
    decide
  have hL2 : sortByCmp cmpBySpeed true [rSpeed2, rSpeed1] = [rSpeed1, rSpeed2] := by
    rw [sortByCmp_pair]
    decide
  have e1 : appCx.toggle_sort_direction = appCx1 := by
    unfold App.toggle_sort_direction
    rw [sort_results_eq_speed_dns { appCx with sort_ascending := !appCx.sort_ascending }
      rfl rfl]
    simp only [appCx, appCx1, Bool.not_true]
    rw [hL1]
  have e2 : appCx1.toggle_sort_direction = appCx2 := by
    unfold App.toggle_sort_direction
    rw [sort_results_eq_speed_dns { appCx1 with sort_ascending := !appCx1.sort_ascending }
      rfl rfl]
    simp only [appCx1, appCx2, Bool.not_false]
    rw [hL2]
  rw [e1, e2]
  exact ⟨by decide, by decide⟩

/-- Witness for C6's amended theorem at a concrete input: the same two
results, already sorted descending by speed, are restored by a double
toggle. -/
theorem sort_algebra_amended_witness :
    ({ app0 with results := [rSpeed2, rSpeed1] }
      : App).toggle_sort_direction.toggle_sort_direction =
      { app0 with results := [rSpeed2, rSpeed1] } := by
  refine sort_algebra_amended.2 _ ?_
  simp only [App.activeToggleReady, app0]
  decide

/-! ### The dispatch/record run protocol (C4) -/

theorem record_result_core_fields (app : App) (B : DnsTestResult) :
    (app.record_result_core B).dns_servers = app.dns_servers ∧
    (app.record_result_core B).results = app.results ++ [B] ∧
    (app.record_result_core B).testing_index = app.testing_index + 1 ∧
    (app.record_result_core B).state = app.state := by
  unfold App.record_result_core
  cases h : app.best_result <;> simp only [h] <;> split <;> exact ⟨rfl, rfl, rfl, rfl⟩

theorem record_result_eq_core (app : App) (B : DnsTestResult)
    (h : app.testing_index + 1 < app.dns_servers.length) :
    app.record_result B = app.record_result_core B := by
  unfold App.record_result
  dsimp only
  rw [if_neg]
  rw [(record_result_core_fields app B).1, (record_result_core_fields app B).2.2.1]
  omega

theorem record_result_eq_finish (app : App) (B : DnsTestResult)
    (h : app.dns_servers.length ≤ app.testing_index + 1) :
    app.record_result B = (app.record_result_core B).finish_testing := by
  unfold App.record_result
  dsimp only
  rw [if_pos]
  rw [(record_result_core_fields app B).1, (record_result_core_fields app B).2.2.1]
  omega

theorem foldl_core_results (rs : List DnsTestResult) :
    ∀ app : App,
      (rs.foldl App.record_result_core app).dns_servers = app.dns_servers ∧
      (rs.foldl App.record_result_core app).results = app.results ++ rs ∧
      (rs.foldl App.record_result_core app).testing_index =
        app.testing_index + rs.length ∧
      (rs.foldl App.record_result_core app).state = app.state := by
  induction rs with
  | nil => intro app; exact ⟨rfl, by simp, rfl, rfl⟩
  | cons r rest ih =>
    intro app
    simp only [List.foldl_cons]
    obtain ⟨h1, h2, h3, h4⟩ := ih (app.record_result_core r)
    obtain ⟨g1, g2, g3, g4⟩ := record_result_core_fields app r
    refine ⟨by rw [h1, g1], ?_, by rw [h3, g3, List.length_cons]; omega, by rw [h4, g4]⟩
    rw [h2, g2, List.append_assoc, List.singleton_append]

/-- Folding `record_result` over exactly the missing number of results is the
core accumulation followed by one `finish_testing`. -/
theorem foldl_record_eq_finish (rs : List DnsTestResult) :
    ∀ app : App, rs ≠ [] → app.testing_index + rs.length = app.dns_servers.length →
      rs.foldl App.record_result app = (rs.foldl App.record_result_core app).finish_testing := by
  induction rs with
  | nil => intro app h; exact absurd rfl h
  | cons r rest ih =>
    intro app _ hlen
    simp only [List.foldl_cons]
    cases rest with
    | nil =>
      simp only [List.foldl_nil]
      apply record_result_eq_finish
      simp only [List.length_cons, List.length_nil] at hlen
      omega
    | cons r2 rest2 =>
      have hmid : app.testing_index + 1 < app.dns_servers.length := by
        simp only [List.length_cons] at hlen
        omega
      rw [record_result_eq_core app r hmid]
      apply ih
      · simp
      · rw [(record_result_core_fields app r).2.2.1, (record_result_core_fields app r).1]
        simp only [List.length_cons] at hlen ⊢
        omega

theorem start_testing_dns (app : App) (hmode : app.mode = AppMode.Dns)
    (hne : app.dns_servers ≠ []) :
    app.start_testing =
      { app with
        state := AppState.Testing
        testing_index := 0
        results := []
        mirror_results := [] } := by
  unfold App.start_testing
  simp only [hmode]
  rw [if_pos (fun h0 => hne (List.length_eq_zero.mp h0))]

/-- C4: for a non-empty candidate list, `start_testing` followed by the
dispatch/record protocol — one result per dispatched candidate, recorded in
dispatch order, modelled as folding `record_result` over the per-candidate
probe results — ends in `Results`, and the raw results list before the final
sort is exactly one result per candidate with the result at index `i`
produced for candidate `i`. -/
theorem run_completeness (app : App) (probe : String → DnsTestResult)
    (hmode : app.mode = AppMode.Dns) (hne : app.dns_servers ≠ [])
    (hprobe : ∀ ip, (probe ip).ip = ip) :
    ∃ raw : App,
      (app.dns_servers.map probe).foldl App.record_result app.start_testing =
        raw.finish_testing ∧
      ((app.dns_servers.map probe).foldl App.record_result app.start_testing).state =
        AppState.Results ∧
      raw.results = app.dns_servers.map probe ∧
      raw.results.length = app.dns_servers.length ∧
      ∀ (i : Nat) (h : i < app.dns_servers.length),
        raw.results[i]? = some (probe (app.dns_servers.get ⟨i, h⟩)) ∧
        (probe (app.dns_servers.get ⟨i, h⟩)).ip = app.dns_servers.get ⟨i, h⟩ := by
  have hne2 : app.dns_servers.map probe ≠ [] := by
    intro hc
    exact hne (List.map_eq_nil_iff.mp hc)
  have hfields := start_testing_dns app hmode hne
  have hlen0 : (app.start_testing).testing_index + (app.dns_servers.map probe).length =
      (app.start_testing).dns_servers.length := by
    rw [hfields]
    simp
  have hcore := foldl_core_results (app.dns_servers.map probe) app.start_testing
  have hresults : ((app.dns_servers.map probe).foldl App.record_result_core
      app.start_testing).results = app.dns_servers.map probe := by
    rw [hcore.2.1, hfields]
    simp
  refine ⟨(app.dns_servers.map probe).foldl App.record_result_core app.start_testing,
    foldl_record_eq_finish _ _ hne2 hlen0, ?_, hresults, ?_, ?_⟩
  · rw [foldl_record_eq_finish _ _ hne2 hlen0, finish_testing_state]
  · rw [hresults]
    simp
  · intro i h
    refine ⟨?_, hprobe _⟩
    rw [hresults, List.getElem?_map, List.getElem?_eq_getElem h]
    simp [List.get_eq_getElem]

/-- A deterministic probe model producing one result per candidate. -/
def probeW (ip : String) : DnsTestResult :=
  { ip := ip, latency := some 1, download_speed_mbps := some 1, error := none }

/-- A concrete two-candidate app for the C4 witness. -/
def appRun : App :=
  { app0 with dns_servers := ["1.1.1.1", "8.8.8.8"] }

/-- Witness for C4 at a concrete input: a two-candidate run. -/
theorem run_completeness_witness :
    ∃ raw : App,
      (appRun.dns_servers.map probeW).foldl App.record_result appRun.start_testing =
        raw.finish_testing ∧
      ((appRun.dns_servers.map probeW).foldl App.record_result appRun.start_testing).state =
        AppState.Results ∧
      raw.results = appRun.dns_servers.map probeW ∧
      raw.results.length = appRun.dns_servers.length ∧
      ∀ (i : Nat) (h : i < appRun.dns_servers.length),
        raw.results[i]? = some (probeW (appRun.dns_servers.get ⟨i, h⟩)) ∧
        (probeW (appRun.dns_servers.get ⟨i, h⟩)).ip = appRun.dns_servers.get ⟨i, h⟩ :=
  run_completeness appRun probeW rfl (by decide) (fun _ => rfl)

end DnsMaster
